import Mathlib

/-!
Shallow embedding of the motion-episode detection pipeline of
`mail_webcam_detection` (`main.py` / `config.py`), together with proofs of the
behavioural claims about it.  External OpenCV calls (background subtraction,
morphology, contour extraction, drawing, colour conversion, image encoding)
are treated as opaque parameters or as data carried by the inputs; everything
the repository's own code computes is translated directly.
-/

namespace MotionDetect

/-- An axis-aligned bounding box as returned by `cv2.boundingRect`:
`x`, `y`, width `w`, height `h`. -/
structure MotionBox where
  x : Nat
  y : Nat
  w : Nat
  h : Nat
deriving DecidableEq

/-- Abstraction of one contour returned by `cv2.findContours`: its vertex
count (`len(contour)`) together with the results of the external calls
`cv2.contourArea` and `cv2.boundingRect` on it. -/
structure Contour where
  vertices : Nat
  area : Rat
  bbox : MotionBox
deriving DecidableEq

/-- The per-frame verdict returned by `detect_motion`:
`(motion_detected, motion_boxes, fg_mask, total_motion_area)`.
The mask is abstract (an identifier), `none` standing for Python `None`. -/
structure MotionReading where
  detected : Bool
  boxes : List MotionBox
  mask : Option Nat
  totalArea : Rat
deriving DecidableEq

/-- Outcome of the OpenCV pipeline inside `detect_motion` up to
`cv2.findContours` (background-subtractor apply, morphological cleanup,
contour extraction): either the foreground mask and the contour list, or a
raised exception (e.g. on a null/degenerate frame). -/
inductive CVPipeline where
  | ok (mask : Nat) (contours : List Contour)
  | raised
deriving DecidableEq

/-- The contour loop of `detect_motion` (main.py lines 114-127): skip contours
with fewer than 3 vertices, keep a contour when its area strictly exceeds
`min_contour_area`, record its bounding box, accumulate its area, and set the
detected flag. -/
def detectLoop (min_contour_area : Rat) (contours : List Contour) :
    Bool × List MotionBox × Rat :=
  contours.foldl
    (fun acc c =>
      if c.vertices < 3 then acc
      else if c.area > min_contour_area then
        (true, acc.2.1 ++ [c.bbox], acc.2.2 + c.area)
      else acc)
    (false, [], 0)

/-- `detect_motion` (main.py lines 101-133): on any internal exception the
`except` branch returns `(False, [], None, 0)`; otherwise the contour loop
runs on the extracted contours. -/
def detect_motion (min_contour_area : Rat) (p : CVPipeline) : MotionReading :=
  match p with
  | .raised => ⟨false, [], none, 0⟩
  | .ok mask contours =>
    let r := detectLoop min_contour_area contours
    ⟨r.1, r.2.1, some mask, r.2.2⟩

/-- The contours `detect_motion` keeps: at least 3 vertices and area strictly
above the configured minimum. -/
def keptContours (min_contour_area : Rat) (contours : List Contour) :
    List Contour :=
  contours.filter (fun c => !(c.vertices < 3) && (c.area > min_contour_area))

/-- One buffered entry of `self.motion_sequence`: the dict appended in `run`
(main.py lines 289-294).  The frame is abstract (the identifier of the copied
buffer). -/
structure SeqEntry where
  frame : Nat
  timestamp : Rat
  motion_area : Rat
  motion_boxes : List MotionBox
deriving DecidableEq

/-- The fixed large-box threshold of `process_motion_sequence`
(main.py line 213). -/
def min_large_box_area : Nat := 5000

/-- `any(w*h > min_large_box_area for (x0,y0,w,h) in x['motion_boxes'])`
(main.py line 216). -/
def hasLargeBox (e : SeqEntry) : Bool :=
  e.motion_boxes.any (fun b => b.w * b.h > min_large_box_area)

/-- The qualifying buffered entries of an episode: those with at least one
region whose `w*h` strictly exceeds the large-box threshold. -/
def qualifyingEntries (seq : List SeqEntry) : List SeqEntry :=
  seq.filter hasLargeBox

/-- Observable side effects of the pipeline: a `save_motion_image` attempt on
a chosen entry, an `email_service.send_motion_alert(path)` call with its
outcome, and an `os.remove(path)` call (`existed` false when the file was
already gone and the removal raised). -/
inductive Action where
  | saveImage (e : SeqEntry)
  | sendAttempt (path : String) (ok : Bool)
  | removeAttempt (path : String) (existed : Bool)
deriving DecidableEq

/-- Python `max(l, key=k)`: fold that replaces the current best only on a
strictly greater key, so the first maximal element wins. -/
def pyMaxAux (key : SeqEntry → Rat) (best : SeqEntry) :
    List SeqEntry → SeqEntry
  | [] => best
  | e :: rest => pyMaxAux key (if key e > key best then e else best) rest

/-- Python truthiness of an optional string: `None` and `""` are falsy. -/
def pyTruthyStr : Option String → Bool
  | none => false
  | some s => !s.isEmpty

/-- The body of `email_worker` (main.py lines 174-186): attempt the send
inside the lock, and in the `finally` block attempt to remove the file,
whatever the send outcome; a removal failure is swallowed. -/
def email_worker (path : String) (sendOk fileExists : Bool) : List Action :=
  [Action.sendAttempt path sendOk, Action.removeAttempt path fileExists]

/-- `send_motion_alert` (main.py lines 169-189): return immediately when the
email service is disabled or the path is falsy, otherwise spawn the worker. -/
def send_motion_alert (emailService : Bool) (imagePath : Option String)
    (sendOk fileExists : Bool) : List Action :=
  if !emailService || !pyTruthyStr imagePath then []
  else
    match imagePath with
    | none => []
    | some p => email_worker p sendOk fileExists

/-- The fields of the detector state that `process_motion_sequence` touches. -/
structure ProcState where
  motion_sequence : List SeqEntry
  motion_active : Bool
  last_motion_time : Rat
deriving DecidableEq

/-- `process_motion_sequence` (main.py lines 191-240).  `saveRes` abstracts
the `save_motion_image` callee (the returned path, `none` on failure);
`sendOk`/`fileExists` abstract the notifier and filesystem outcomes; `now` is
the `time.time()` read on a successful save. -/
def process_motion_sequence (emailService : Bool)
    (saveRes : SeqEntry → Option String) (sendOk fileExists : Bool)
    (now : Rat) (s : ProcState) : ProcState × List Action :=
  if s.motion_sequence.isEmpty then (s, [])
  else if s.motion_sequence.length < 1 then
    ({ s with motion_sequence := [], motion_active := false }, [])
  else
    let valid := s.motion_sequence.filter (fun e => !e.motion_boxes.isEmpty)
    if valid.isEmpty then
      ({ s with motion_sequence := [], motion_active := false }, [])
    else
      match valid.filter hasLargeBox with
      | [] => ({ s with motion_sequence := [], motion_active := false }, [])
      | b :: rest =>
        let best := pyMaxAux (fun e => e.motion_area) b rest
        let imagePath := saveRes best
        if pyTruthyStr imagePath then
          ({ motion_sequence := [], motion_active := false,
             last_motion_time := now },
           Action.saveImage best ::
             (if emailService then
                send_motion_alert emailService imagePath sendOk fileExists
              else []))
        else
          ({ s with motion_sequence := [], motion_active := false },
           [Action.saveImage best])

/-- `self.warmup_frames = 60` (main.py line 251). -/
def warmup_frames : Nat := 60

/-- `self.min_startup_delay = 5` seconds (main.py line 253). -/
def min_startup_delay : Rat := 5

/-- The mutable state of the `run` loop (main.py lines 250-254 and the
episode-tracking fields of `__init__`). -/
structure RunState where
  frame_count : Nat
  initialized : Bool
  motion_active : Bool
  motion_start_time : Rat
  motion_sequence : List SeqEntry
  last_motion_time : Rat
deriving DecidableEq

/-- The environment of one iteration of the `run` loop: the camera read
outcome, the frame identifier, the `time.time()` values read at the warmup
check and after detection, the `detect_motion` reading the frame would
produce, and the outcomes of the save / send / remove calls should the
iteration close an episode. -/
structure FrameInput where
  readOk : Bool
  frame : Nat
  gateTime : Rat
  curTime : Rat
  reading : MotionReading
  saveResult : Option String
  sendOk : Bool
  fileExists : Bool
deriving DecidableEq

/-- One iteration of the `run` loop body (main.py lines 257-299), given the
start time of the loop. -/
def runStep (emailService : Bool) (startTime : Rat) (s : RunState)
    (inp : FrameInput) : RunState × List Action :=
  if !inp.readOk then (s, [])
  else
    let s1 := { s with frame_count := s.frame_count + 1 }
    if s1.frame_count ≤ warmup_frames ||
        inp.gateTime - startTime < min_startup_delay then
      (s1, [])
    else if !s1.initialized then
      ({ s1 with initialized := true }, [])
    else
      let r := inp.reading
      if r.detected && !r.boxes.isEmpty then
        let s2 :=
          if !s1.motion_active then
            { s1 with motion_active := true,
                      motion_start_time := inp.curTime,
                      motion_sequence := [] }
          else s1
        ({ s2 with motion_sequence := s2.motion_sequence ++
            [⟨inp.frame, inp.curTime, r.totalArea, r.boxes⟩] }, [])
      else
        if s1.motion_active && !s1.motion_sequence.isEmpty then
          let ps : ProcState :=
            ⟨s1.motion_sequence, s1.motion_active, s1.last_motion_time⟩
          let pr := process_motion_sequence emailService
            (fun _ => inp.saveResult) inp.sendOk inp.fileExists inp.curTime ps
          ({ s1 with motion_sequence := [], motion_active := false,
                     last_motion_time := pr.1.last_motion_time }, pr.2)
        else
          ({ s1 with motion_sequence := [], motion_active := false }, [])

/-- The `run` loop over a finite list of frame inputs. -/
def runTrace (emailService : Bool) (startTime : Rat) (s : RunState) :
    List FrameInput → RunState × List Action
  | [] => (s, [])
  | inp :: rest =>
    let pr := runStep emailService startTime s inp
    let pr' := runTrace emailService startTime pr.1 rest
    (pr'.1, pr.2 ++ pr'.2)

/-- Abstraction of a numpy array: its pixel buffer (abstract contents), the
length of its `shape`, and `shape[2]` when three-dimensional.  `pixels = []`
models `size == 0`. -/
structure PyFrame where
  pixels : List Nat
  ndims : Nat
  channels : Nat
deriving DecidableEq

/-- A heap of numpy buffers; the index is the array's identity, and in-place
OpenCV drawing mutates the entry at an index. -/
abbrev Heap := List PyFrame

/-- The subset of the validated `Config` (config.py) that `save_motion_image`
reads: `images_dir`, `image_format` (validated against jpg/jpeg/png but never
consulted by `save_motion_image`), and `image_quality`. -/
structure Config where
  images_dir : String
  image_format : String
  image_quality : Nat
deriving DecidableEq

/-- A `datetime.now()` value. -/
structure Timestamp where
  year : Nat
  month : Nat
  day : Nat
  hour : Nat
  minute : Nat
  second : Nat
  microsecond : Nat
deriving DecidableEq

/-- Zero-pad a number to `width` digits, as `strftime` does. -/
def padLeft (width : Nat) (n : Nat) : String :=
  String.mk (List.replicate (width - (toString n).length) '0') ++ toString n

/-- `datetime.now().strftime("%Y%m%d_%H%M%S_%f")` (main.py line 155): date,
time, and the microsecond field padded to six digits. -/
def strftime_motion (t : Timestamp) : String :=
  padLeft 4 t.year ++ padLeft 2 t.month ++ padLeft 2 t.day ++ "_" ++
    padLeft 2 t.hour ++ padLeft 2 t.minute ++ padLeft 2 t.second ++ "_" ++
    padLeft 6 t.microsecond

/-- The heap after `out_frame = frame.copy()` (allocating a fresh buffer at
index `h.length`) and the in-place `cv2.rectangle` calls on that copy
(main.py lines 143-146); `rectangle` is the abstract drawing operation. -/
def drawnHeap (rectangle : MotionBox → PyFrame → PyFrame) (h : Heap)
    (f : PyFrame) (motion_boxes : List MotionBox) : Heap :=
  motion_boxes.foldl
    (fun hh b => hh.set h.length (rectangle b (hh.getD h.length f)))
    (h ++ [f])

/-- The value of the `out_frame` variable handed to `cv2.imwrite` (main.py
lines 148-152): the annotated copy, converted to BGR when its shape is
two-dimensional (`gray2bgr`) or has four channels (`rgba2bgr`). -/
def out_frame (rectangle : MotionBox → PyFrame → PyFrame)
    (gray2bgr rgba2bgr : PyFrame → PyFrame) (h : Heap) (f : PyFrame)
    (motion_boxes : List MotionBox) : PyFrame :=
  let outF := (drawnHeap rectangle h f motion_boxes).getD h.length f
  if outF.ndims = 2 then gray2bgr outF
  else if outF.channels = 4 then rgba2bgr outF
  else outF

/-- `save_motion_image` (main.py lines 135-167).  `rectangle` is the in-place
`cv2.rectangle` mutation of a buffer, `gray2bgr` / `rgba2bgr` the
`cv2.cvtColor` conversions (returning new arrays), and `imwrite` the encoder,
`false` meaning the call raised (the `except` branch then returns `None`).
Returns the mutated heap, the value `save_motion_image` returns (the path
string, or `None` on failure), and the `cv2.imwrite` call that was
attempted, if any: `(filepath, frame, quality)`. -/
def save_motion_image (rectangle : MotionBox → PyFrame → PyFrame)
    (gray2bgr rgba2bgr : PyFrame → PyFrame)
    (imwrite : String → PyFrame → Nat → Bool)
    (cfg : Config) (now : Timestamp) (h : Heap) (frame : Option Nat)
    (motion_boxes : List MotionBox) :
    Heap × Option String × Option (String × PyFrame × Nat) :=
  match frame with
  | none => (h, none, none)
  | some fid =>
    match h[fid]? with
    | none => (h, none, none)
    | some f =>
      if f.pixels.isEmpty then (h, none, none)
      else
        let outF2 := out_frame rectangle gray2bgr rgba2bgr h f motion_boxes
        let filepath :=
          cfg.images_dir ++ "/" ++ ("motion_" ++ strftime_motion now ++ ".jpg")
        (drawnHeap rectangle h f motion_boxes,
          if imwrite filepath outF2 cfg.image_quality then some filepath
          else none,
          some (filepath, outF2, cfg.image_quality))

/-- A configuration selecting the png image format, which
`Config._validate_paths` accepts (config.py lines 127-129). -/
def cfgPng : Config := ⟨"images", "png", 90⟩

/-- A minimal valid three-channel frame. -/
def framePx : PyFrame := ⟨[1], 3, 3⟩

/-- A concrete capture time. -/
def ts2026 : Timestamp := ⟨2026, 1, 2, 3, 4, 5, 6⟩

/-- A region larger than the large-box threshold (100*100 = 10000 px). -/
def boxBig : MotionBox := ⟨0, 0, 100, 100⟩

/-- A region below the large-box threshold (10*10 = 100 px). -/
def boxSmall : MotionBox := ⟨0, 0, 10, 10⟩

/-- Sample buffered entries of one episode. -/
def entryA : SeqEntry := ⟨1, 0, 10000, [boxBig]⟩

def entryB : SeqEntry := ⟨2, 1, 12000, [boxBig]⟩

def entryC : SeqEntry := ⟨3, 2, 8000, [boxSmall]⟩

/-- An episode state holding the three sample entries. -/
def procStateW : ProcState := ⟨[entryA, entryB, entryC], true, 0⟩

/-- A warmed-up, initialized run state buffering one entry. -/
def runStateW : RunState := ⟨100, true, true, 0, [entryA], 0⟩

/-- A run state still inside the frame-count warm-up gate. -/
def runStateGate : RunState := ⟨3, false, false, 0, [], 0⟩

/-- A run state past the gate whose subtractor is not yet initialized. -/
def runStateFresh : RunState := ⟨100, false, false, 0, [], 0⟩

/-- A reading with no motion regions. -/
def readingEmpty : MotionReading := ⟨false, [], some 0, 0⟩

/-- A frame input arriving 10 s after start, carrying an empty reading. -/
def frameInputW : FrameInput :=
  ⟨true, 7, 10, 10, readingEmpty, some "img.jpg", true, true⟩

theorem detectLoop_go (mca : Rat) :
    ∀ (cs : List Contour) (d : Bool) (bs : List MotionBox) (t : Rat),
      cs.foldl
        (fun acc c =>
          if c.vertices < 3 then acc
          else if c.area > mca then
            (true, acc.2.1 ++ [c.bbox], acc.2.2 + c.area)
          else acc)
        (d, bs, t) =
      ((d || !(keptContours mca cs).isEmpty),
        bs ++ (keptContours mca cs).map Contour.bbox,
        t + ((keptContours mca cs).map Contour.area).sum) := by
  intro cs
  induction cs with
  | nil => intro d bs t; simp [keptContours]
  | cons c cs ih =>
    intro d bs t
    by_cases hv : c.vertices < 3
    · have hkept : keptContours mca (c :: cs) = keptContours mca cs := by
        simp [keptContours, List.filter_cons, hv]
      simp only [List.foldl_cons, if_pos hv, hkept]
      exact ih d bs t
    · by_cases ha : c.area > mca
      · have hkept : keptContours mca (c :: cs) = c :: keptContours mca cs := by
          simp [keptContours, List.filter_cons, hv, ha]
        simp only [List.foldl_cons, if_neg hv, if_pos ha, hkept]
        rw [ih]
        simp [List.append_assoc, add_assoc]
      · have hkept : keptContours mca (c :: cs) = keptContours mca cs := by
          simp [keptContours, List.filter_cons, hv, ha]
        simp only [List.foldl_cons, if_neg hv, if_neg ha, hkept]
        exact ih d bs t

theorem detectLoop_eq (mca : Rat) (cs : List Contour) :
    detectLoop mca cs =
      (!(keptContours mca cs).isEmpty,
        (keptContours mca cs).map Contour.bbox,
        ((keptContours mca cs).map Contour.area).sum) := by
  unfold detectLoop
  rw [detectLoop_go mca cs false [] 0]
  simp

/-- C5: for every mask whose contour extraction succeeds, `detect_motion`
discards contours with fewer than 3 vertices, keeps a contour exactly when
its area strictly exceeds the configured minimum contour area, produces one
bounding box per kept contour (in discovery order), and returns a total area
equal to the sum of the kept contour areas, not of the box areas. -/
theorem detect_motion_region_extraction (mca : Rat) (m : Nat)
    (cs : List Contour) :
    (detect_motion mca (.ok m cs)).boxes =
        (keptContours mca cs).map Contour.bbox ∧
      (detect_motion mca (.ok m cs)).totalArea =
        ((keptContours mca cs).map Contour.area).sum := by
  constructor <;> simp [detect_motion, detectLoop_eq]

/-- C6: whenever the OpenCV pipeline inside `detect_motion` raises (null or
invalid frame included), `detect_motion` returns the empty verdict
`(False, [], None, 0)` to its caller instead of propagating the exception. -/
theorem detect_motion_failure_is_empty_verdict (mca : Rat) :
    detect_motion mca CVPipeline.raised =
      { detected := false, boxes := [], mask := none, totalArea := 0 } := rfl

/-- C9: for every input, the `detected` flag of the reading returned by
`detect_motion` is true exactly when its list of motion boxes is non-empty. -/
theorem detect_motion_detected_iff_boxes (mca : Rat) (p : CVPipeline) :
    (detect_motion mca p).detected = true ↔
      (detect_motion mca p).boxes ≠ [] := by
  cases p with
  | raised => simp [detect_motion]
  | ok m cs =>
    simp only [detect_motion, detectLoop_eq]
    cases keptContours mca cs <;> simp

theorem pyMaxAux_split (key : SeqEntry → Rat) :
    ∀ (l : List SeqEntry) (b : SeqEntry),
      ∃ pre post, b :: l = pre ++ pyMaxAux key b l :: post ∧
        (∀ e ∈ pre, key e < key (pyMaxAux key b l)) ∧
        (∀ e ∈ b :: l, key e ≤ key (pyMaxAux key b l)) := by
  intro l
  induction l with
  | nil =>
    intro b
    exact ⟨[], [], rfl, by simp, by simp [pyMaxAux]⟩
  | cons e rest ih =>
    intro b
    by_cases h : key e > key b
    · have hred : pyMaxAux key b (e :: rest) = pyMaxAux key e rest := by
        simp [pyMaxAux, h]
      obtain ⟨pre, post, hsplit, hpre, hmax⟩ := ih e
      rw [hred]
      have hem : key e ≤ key (pyMaxAux key e rest) := hmax e (by simp)
      refine ⟨b :: pre, post, ?_, ?_, ?_⟩
      · rw [List.cons_append, hsplit]
      · intro x hx
        rcases List.mem_cons.mp hx with hx | hx
        · exact hx ▸ lt_of_lt_of_le h hem
        · exact hpre x hx
      · intro x hx
        rcases List.mem_cons.mp hx with hx | hx
        · exact hx ▸ le_of_lt (lt_of_lt_of_le h hem)
        · exact hmax x hx
    · have hred : pyMaxAux key b (e :: rest) = pyMaxAux key b rest := by
        simp [pyMaxAux, h]
      have hle : key e ≤ key b := not_lt.mp h
      obtain ⟨pre, post, hsplit, hpre, hmax⟩ := ih b
      rw [hred]
      have hbm : key b ≤ key (pyMaxAux key b rest) := hmax b (by simp)
      cases pre with
      | nil =>
        simp only [List.nil_append] at hsplit
        have hb : b = pyMaxAux key b rest := (List.cons.injEq _ _ _ _ ▸ hsplit).1
        refine ⟨[], e :: post, ?_, by simp, ?_⟩
        · simp only [List.nil_append]
          rw [← hb]
          have hrest : rest = post := (List.cons.injEq _ _ _ _ ▸ hsplit).2
          rw [hrest]
        · intro x hx
          rcases List.mem_cons.mp hx with hx | hx
          · exact hx ▸ hbm
          · rcases List.mem_cons.mp hx with hx | hx
            · exact hx ▸ le_trans hle hbm
            · exact hmax x (List.mem_cons_of_mem b hx)
      | cons p pre2 =>
        simp only [List.cons_append] at hsplit
        have hb : b = p := (List.cons.injEq _ _ _ _ ▸ hsplit).1
        have hrest : rest = pre2 ++ pyMaxAux key b rest :: post :=
          (List.cons.injEq _ _ _ _ ▸ hsplit).2
        have hpm : key b < key (pyMaxAux key b rest) :=
          hb ▸ hpre p (by simp)
        refine ⟨b :: e :: pre2, post, ?_, ?_, ?_⟩
        · simp only [List.cons_append]
          rw [← hrest]
        · intro x hx
          rcases List.mem_cons.mp hx with hx | hx
          · exact hx ▸ hpm
          · rcases List.mem_cons.mp hx with hx | hx
            · exact hx ▸ lt_of_le_of_lt hle hpm
            · exact hpre x (hb ▸ List.mem_cons_of_mem p hx)
        · intro x hx
          rcases List.mem_cons.mp hx with hx | hx
          · exact hx ▸ hbm
          · rcases List.mem_cons.mp hx with hx | hx
            · exact hx ▸ le_trans hle hbm
            · exact hmax x (List.mem_cons_of_mem b hx)

theorem filter_nonempty_filter_large (seq : List SeqEntry) :
    (seq.filter (fun e => !e.motion_boxes.isEmpty)).filter hasLargeBox =
      qualifyingEntries seq := by
  rw [List.filter_filter]
  unfold qualifyingEntries
  apply List.filter_congr
  intro e _
  cases hE : e.motion_boxes with
  | nil => simp [hasLargeBox, hE]
  | cons x xs => simp [hE]

/-- C1: for every non-empty closed episode, `process_motion_sequence`
persists exactly the buffered entry of maximum `motion_area` among the
entries having at least one region with `w*h > 5000`, ties broken by buffer
order (every strictly earlier qualifying entry has strictly smaller area);
when no buffered entry has such a region it fully resets the episode state
and emits no save, no send and no delete. -/
theorem best_frame_selection (es : Bool) (saveRes : SeqEntry → Option String)
    (sendOk fileExists : Bool) (now : Rat) (s : ProcState)
    (hne : s.motion_sequence ≠ []) :
    (qualifyingEntries s.motion_sequence = [] →
      process_motion_sequence es saveRes sendOk fileExists now s =
        ({ s with motion_sequence := [], motion_active := false }, [])) ∧
    (∀ b rest, qualifyingEntries s.motion_sequence = b :: rest →
      ∃ best pre post acts,
        (process_motion_sequence es saveRes sendOk fileExists now s).2 =
            Action.saveImage best :: acts ∧
          (∀ e, Action.saveImage e ∉ acts) ∧
          qualifyingEntries s.motion_sequence = pre ++ best :: post ∧
          (∀ e ∈ pre, e.motion_area < best.motion_area) ∧
          (∀ e ∈ qualifyingEntries s.motion_sequence,
            e.motion_area ≤ best.motion_area)) := by
  have h1 : s.motion_sequence.isEmpty = false := by
    simp [List.isEmpty_iff, hne]
  have h2 : ¬ s.motion_sequence.length < 1 := by
    have := List.length_pos.mpr hne
    omega
  have hflt := filter_nonempty_filter_large s.motion_sequence
  constructor
  · intro hq
    rw [hq] at hflt
    by_cases hv :
        (s.motion_sequence.filter (fun e => !e.motion_boxes.isEmpty)).isEmpty
    · simp [process_motion_sequence, h1, h2, hv]
    · simp only [process_motion_sequence, h1, Bool.false_eq_true, if_false,
        if_neg h2, hv, hflt]
  · intro b rest hq
    rw [hq] at hflt
    have hvne : s.motion_sequence.filter (fun e => !e.motion_boxes.isEmpty) ≠ [] := by
      intro h0
      rw [h0] at hflt
      simp at hflt
    have hv :
        (s.motion_sequence.filter (fun e => !e.motion_boxes.isEmpty)).isEmpty = false := by
      simp [List.isEmpty_iff, hvne]
    obtain ⟨pre, post, hsplit, hpre, hmax⟩ :=
      pyMaxAux_split (fun e => e.motion_area) rest b
    have hqmax : ∀ e ∈ qualifyingEntries s.motion_sequence,
        e.motion_area ≤ (pyMaxAux (fun e => e.motion_area) b rest).motion_area := by
      intro e he
      rw [hq] at he
      exact hmax e he
    by_cases ht : pyTruthyStr (saveRes (pyMaxAux (fun e => e.motion_area) b rest))
    · refine ⟨pyMaxAux (fun e => e.motion_area) b rest, pre, post,
        (if es then
          send_motion_alert es
            (saveRes (pyMaxAux (fun e => e.motion_area) b rest))
            sendOk fileExists
         else []),
        ?_, ?_, hq.trans hsplit, hpre, hqmax⟩
      · simp [process_motion_sequence, h1, h2, hv, hflt, ht]
      · intro e
        by_cases he : es
        · cases hs : saveRes (pyMaxAux (fun e => e.motion_area) b rest) with
          | none => rw [hs] at ht; simp [pyTruthyStr] at ht
          | some p =>
            rw [hs] at ht
            simp [he, hs, send_motion_alert, email_worker, ht]
        · simp [he]
    · refine ⟨pyMaxAux (fun e => e.motion_area) b rest, pre, post, [],
        ?_, by simp, hq.trans hsplit, hpre, hqmax⟩
      simp [process_motion_sequence, h1, h2, hv, hflt, ht]

theorem pyTruthy_some {p : String} (hp : p ≠ "") :
    pyTruthyStr (some p) = true := by
  have : p.isEmpty = false := by
    rw [Bool.eq_false_iff]
    intro hx
    exact hp ((String.isEmpty_iff p).mp hx)
  simp [pyTruthyStr, this]

theorem process_acts_cases (es : Bool) (saveRes : SeqEntry → Option String)
    (sendOk fileExists : Bool) (now : Rat) (s : ProcState) :
    (process_motion_sequence es saveRes sendOk fileExists now s).2 = [] ∨
    (∃ best, (process_motion_sequence es saveRes sendOk fileExists now s).2 =
      [Action.saveImage best]) ∨
    (es = true ∧ ∃ best p, saveRes best = some p ∧ p ≠ "" ∧
      (process_motion_sequence es saveRes sendOk fileExists now s).2 =
        [Action.saveImage best, Action.sendAttempt p sendOk,
          Action.removeAttempt p fileExists]) := by
  by_cases h1 : s.motion_sequence.isEmpty
  · left; simp [process_motion_sequence, h1]
  · by_cases h2 : s.motion_sequence.length < 1
    · left; simp [process_motion_sequence, h1, h2]
    · by_cases hv :
          (s.motion_sequence.filter (fun e => !e.motion_boxes.isEmpty)).isEmpty
      · left; simp [process_motion_sequence, h1, h2, hv]
      · cases hm : (s.motion_sequence.filter
            (fun e => !e.motion_boxes.isEmpty)).filter hasLargeBox with
        | nil => left; simp [process_motion_sequence, h1, h2, hv, hm]
        | cons b rest =>
          by_cases ht :
              pyTruthyStr (saveRes (pyMaxAux (fun e => e.motion_area) b rest))
          · cases hs : saveRes (pyMaxAux (fun e => e.motion_area) b rest) with
            | none => rw [hs] at ht; simp [pyTruthyStr] at ht
            | some p =>
              have hpne : p ≠ "" := by
                intro h0
                rw [hs, h0] at ht
                exact absurd ht (by decide)
              by_cases he : es
              · right; right
                refine ⟨he, pyMaxAux (fun e => e.motion_area) b rest, p, hs,
                  hpne, ?_⟩
                simp [process_motion_sequence, h1, h2, hv, hm, ht, he, hs,
                  send_motion_alert, email_worker, pyTruthy_some hpne]
              · right; left
                refine ⟨pyMaxAux (fun e => e.motion_area) b rest, ?_⟩
                simp [process_motion_sequence, h1, h2, hv, hm, ht, he]
          · right; left
            refine ⟨pyMaxAux (fun e => e.motion_area) b rest, ?_⟩
            simp [process_motion_sequence, h1, h2, hv, hm, ht]

theorem runStep_acts_cases (es : Bool) (t0 : Rat) (s : RunState)
    (inp : FrameInput) :
    (runStep es t0 s inp).2 = [] ∨
    (runStep es t0 s inp).2 =
      (process_motion_sequence es (fun _ => inp.saveResult) inp.sendOk
        inp.fileExists inp.curTime
        ⟨s.motion_sequence, s.motion_active, s.last_motion_time⟩).2 := by
  by_cases hr : inp.readOk
  · by_cases hg : s.frame_count + 1 ≤ warmup_frames ∨
        inp.gateTime - t0 < min_startup_delay
    · left
      rcases hg with hg | hg <;> simp [runStep, hr, hg]
    · rw [not_or] at hg
      obtain ⟨hg1, hg2⟩ := hg
      by_cases hi : s.initialized
      · by_cases hd :
            (inp.reading.detected && !inp.reading.boxes.isEmpty) = true
        · left; simp [runStep, hr, hg1, hg2, hi, hd]
        · by_cases ha : (s.motion_active && !s.motion_sequence.isEmpty) = true
          · right; simp [runStep, hr, hg1, hg2, hi, hd, ha]
          · left; simp [runStep, hr, hg1, hg2, hi, hd, ha]
      · left; simp [runStep, hr, hg1, hg2, hi]
  · left; simp [runStep, hr]

theorem process_remove_mem (es : Bool) (saveRes : SeqEntry → Option String)
    (sendOk fileExists : Bool) (now : Rat) (s : ProcState) (q : String)
    (exd : Bool)
    (h : Action.removeAttempt q exd ∈
      (process_motion_sequence es saveRes sendOk fileExists now s).2) :
    Action.sendAttempt q sendOk ∈
      (process_motion_sequence es saveRes sendOk fileExists now s).2 := by
  rcases process_acts_cases es saveRes sendOk fileExists now s with
    h0 | ⟨best, h0⟩ | ⟨_, best, p, _, _, h0⟩ <;> rw [h0] at h ⊢ <;>
    simp at h ⊢
  exact h.1

theorem runStep_remove_mem (es : Bool) (t0 : Rat) (s : RunState)
    (inp : FrameInput) (q : String) (exd : Bool)
    (h : Action.removeAttempt q exd ∈ (runStep es t0 s inp).2) :
    ∃ ok, Action.sendAttempt q ok ∈ (runStep es t0 s inp).2 := by
  rcases runStep_acts_cases es t0 s inp with h0 | h0
  · rw [h0] at h; simp at h
  · rw [h0] at h ⊢
    exact ⟨inp.sendOk, process_remove_mem _ _ _ _ _ _ _ _ h⟩

theorem runTrace_remove_mem (es : Bool) (t0 : Rat) :
    ∀ (inps : List FrameInput) (s : RunState) (q : String) (exd : Bool),
      Action.removeAttempt q exd ∈ (runTrace es t0 s inps).2 →
      ∃ ok, Action.sendAttempt q ok ∈ (runTrace es t0 s inps).2 := by
  intro inps
  induction inps with
  | nil =>
    intro s q exd h
    simp [runTrace] at h
  | cons inp rest ih =>
    intro s q exd h
    simp only [runTrace] at h ⊢
    rw [List.mem_append] at h
    rcases h with h | h
    · obtain ⟨ok, hok⟩ := runStep_remove_mem es t0 s inp q exd h
      exact ⟨ok, List.mem_append.mpr (Or.inl hok)⟩
    · obtain ⟨ok, hok⟩ := ih _ q exd h
      exact ⟨ok, List.mem_append.mpr (Or.inr hok)⟩

/-- C4: for every dispatched alert (email service enabled, non-empty path),
the worker emits exactly a send attempt followed by a delete attempt of the
same file, whatever the send outcome, a failing removal being swallowed; and
neither the dispatcher nor any run-loop trace ever emits a delete of a path
it did not attempt to send. -/
theorem alert_deletes_after_send (p : String) (hp : p ≠ "")
    (sendOk fileExists : Bool) :
    send_motion_alert true (some p) sendOk fileExists =
        [Action.sendAttempt p sendOk, Action.removeAttempt p fileExists] ∧
      (∀ (es : Bool) (ip : Option String) (so fe : Bool) (q : String)
          (exd : Bool),
        Action.removeAttempt q exd ∈ send_motion_alert es ip so fe →
          Action.sendAttempt q so ∈ send_motion_alert es ip so fe) ∧
      (∀ (es : Bool) (t0 : Rat) (s0 : RunState) (inps : List FrameInput)
          (q : String) (exd : Bool),
        Action.removeAttempt q exd ∈ (runTrace es t0 s0 inps).2 →
          ∃ ok, Action.sendAttempt q ok ∈ (runTrace es t0 s0 inps).2) := by
  refine ⟨?_, ?_, ?_⟩
  · simp [send_motion_alert, pyTruthy_some hp, email_worker]
  · intro es ip so fe q exd hmem
    unfold send_motion_alert at hmem ⊢
    by_cases hgd : (!es || !pyTruthyStr ip) = true
    · rw [if_pos hgd] at hmem
      simp at hmem
    · rw [if_neg hgd] at hmem ⊢
      cases ip with
      | none => simp at hmem
      | some p' =>
        simp [email_worker] at hmem ⊢
        exact hmem.1
  · intro es t0 s0 inps q exd h
    exact runTrace_remove_mem es t0 inps s0 q exd h

/-- C10: when the email service is disabled or the image path is falsy,
`send_motion_alert` returns immediately with no worker actions (no send, no
delete); and when the service is disabled or every save fails,
`process_motion_sequence` emits no send attempt and no file deletion — the
removal guarantee only applies to files whose send was attempted. -/
theorem alert_noop_without_send (es : Bool) (ip : Option String)
    (so fe : Bool) (h : es = false ∨ pyTruthyStr ip = false) :
    send_motion_alert es ip so fe = [] ∧
      (∀ (saveRes : SeqEntry → Option String) (now : Rat) (s : ProcState),
        (es = false ∨ ∀ e, saveRes e = none) →
        ∀ (q : String) (b : Bool),
          Action.sendAttempt q b ∉
              (process_motion_sequence es saveRes so fe now s).2 ∧
            Action.removeAttempt q b ∉
              (process_motion_sequence es saveRes so fe now s).2) := by
  constructor
  · rcases h with h | h
    · simp [send_motion_alert, h]
    · simp [send_motion_alert, h]
  · intro saveRes now s hcase q b
    rcases process_acts_cases es saveRes so fe now s with
      h0 | ⟨best, h0⟩ | ⟨hes, best, pth, hs, hpne, h0⟩
    · rw [h0]; simp
    · rw [h0]; simp
    · rcases hcase with hcase | hcase
      · rw [hes] at hcase
        exact absurd hcase (by simp)
      · rw [hcase best] at hs
        exact absurd hs (by simp)

/-- C2: the episode tracker appends only entries whose region list is
non-empty — a buffer whose entries all carry regions keeps that property
across any frame — and a single fully-processed frame whose reading carries
no region resets the buffer to empty and the active flag to false. -/
theorem episode_tracker_invariants (es : Bool) (t0 : Rat) (s : RunState)
    (inp : FrameInput) :
    ((∀ e ∈ s.motion_sequence, e.motion_boxes ≠ []) →
      ∀ e ∈ (runStep es t0 s inp).1.motion_sequence, e.motion_boxes ≠ []) ∧
    (inp.readOk = true → warmup_frames < s.frame_count + 1 →
      ¬ inp.gateTime - t0 < min_startup_delay → s.initialized = true →
      inp.reading.boxes = [] →
      (runStep es t0 s inp).1.motion_sequence = [] ∧
        (runStep es t0 s inp).1.motion_active = false) := by
  constructor
  · intro hinv e he
    by_cases hr : inp.readOk
    · by_cases hg : s.frame_count + 1 ≤ warmup_frames ∨
          inp.gateTime - t0 < min_startup_delay
      · rcases hg with hg | hg <;> simp [runStep, hr, hg] at he <;>
          exact hinv e he
      · rw [not_or] at hg
        obtain ⟨hg1, hg2⟩ := hg
        by_cases hi : s.initialized
        · by_cases hd :
              (inp.reading.detected && !inp.reading.boxes.isEmpty) = true
          · have hbne : inp.reading.boxes ≠ [] := by
              intro h0
              rw [Bool.and_eq_true, h0] at hd
              simp at hd
            by_cases ha : s.motion_active
            · simp [runStep, hr, hg1, hg2, hi, hd, ha] at he
              rcases he with he | he
              · exact hinv e he
              · rw [he]
                exact hbne
            · simp [runStep, hr, hg1, hg2, hi, hd, ha] at he
              rw [he]
              exact hbne
          · by_cases ha : (s.motion_active && !s.motion_sequence.isEmpty) = true
            · simp [runStep, hr, hg1, hg2, hi, hd, ha] at he
            · simp [runStep, hr, hg1, hg2, hi, hd, ha] at he
        · simp [runStep, hr, hg1, hg2, hi] at he
          exact hinv e he
    · simp [runStep, hr] at he
      exact hinv e he
  · intro hr hw hng hi hb
    have hg1 : ¬ s.frame_count + 1 ≤ warmup_frames := by omega
    have hdd : (inp.reading.detected && !inp.reading.boxes.isEmpty) = false := by
      rw [hb]
      simp
    by_cases ha : (s.motion_active && !s.motion_sequence.isEmpty) = true
    · constructor <;> simp [runStep, hr, hg1, hng, hi, hdd, ha]
    · constructor <;> simp [runStep, hr, hg1, hng, hi, hdd, ha]

/-- C3: while the warm-up gate holds (incremented frame count at most the
warm-up count, or elapsed time below the startup delay) a read frame only
increments the frame counter — no detection decision, no episode change, no
action; and the first frame read after both gates clear, with the subtractor
not yet initialized, only flips `initialized` to true, leaving the episode
state untouched and producing no action. -/
theorem warmup_gating (es : Bool) (t0 : Rat) (s : RunState) (inp : FrameInput)
    (hr : inp.readOk = true) :
    (s.frame_count + 1 ≤ warmup_frames ∨
        inp.gateTime - t0 < min_startup_delay →
      runStep es t0 s inp =
        ({ s with frame_count := s.frame_count + 1 }, [])) ∧
    (warmup_frames < s.frame_count + 1 →
      ¬ inp.gateTime - t0 < min_startup_delay → s.initialized = false →
      runStep es t0 s inp =
        ({ s with frame_count := s.frame_count + 1,
                  initialized := true }, [])) := by
  constructor
  · intro hg
    rcases hg with hg | hg <;> simp [runStep, hr, hg]
  · intro hw hng hi
    have hg1 : ¬ s.frame_count + 1 ≤ warmup_frames := by omega
    simp [runStep, hr, hg1, hng, hi]

theorem foldl_set_out_preserves (R : MotionBox → PyFrame → PyFrame)
    (outId fid : Nat) (hne : outId ≠ fid) (f0 : PyFrame) :
    ∀ (boxes : List MotionBox) (hh : Heap), hh[fid]? = some f0 →
      (boxes.foldl
        (fun hh b => hh.set outId (R b (hh.getD outId f0))) hh)[fid]? =
        some f0 := by
  intro boxes
  induction boxes with
  | nil =>
    intro hh h
    exact h
  | cons b bs ih =>
    intro hh h
    simp only [List.foldl_cons]
    refine ih _ ?_
    rw [List.getElem?_set_ne hne]
    exact h

/-- C8: persisting a frame never mutates the source frame's buffer — the
annotation rectangles are drawn on a fresh copy — and each failure mode
(missing frame, empty frame, raising write) yields the failure value `None`
instead of an exception. -/
theorem save_no_source_mutation (R : MotionBox → PyFrame → PyFrame)
    (G A : PyFrame → PyFrame) (W : String → PyFrame → Nat → Bool)
    (cfg : Config) (t : Timestamp) (h : Heap) (fid : Nat) (f : PyFrame)
    (boxes : List MotionBox) (hf : h[fid]? = some f) :
    ((save_motion_image R G A W cfg t h (some fid) boxes).1)[fid]? = some f ∧
      save_motion_image R G A W cfg t h none boxes = (h, none, none) ∧
      (f.pixels = [] →
        save_motion_image R G A W cfg t h (some fid) boxes = (h, none, none)) ∧
      ((∀ pth fr q, W pth fr q = false) →
        (save_motion_image R G A W cfg t h (some fid) boxes).2.1 = none) := by
  have hlt : fid < h.length := (List.getElem?_eq_some.mp hf).1
  have hne : h.length ≠ fid := Nat.ne_of_gt hlt
  refine ⟨?_, rfl, ?_, ?_⟩
  · by_cases hp : f.pixels.isEmpty
    · simp [save_motion_image, hf, hp]
    · simp only [save_motion_image, hf, hp, Bool.false_eq_true, if_false,
        drawnHeap]
      refine foldl_set_out_preserves R h.length fid hne f boxes (h ++ [f]) ?_
      rw [List.getElem?_append_left hlt]
      exact hf
  · intro h0
    have hp : f.pixels.isEmpty = true := by simp [h0]
    simp [save_motion_image, hf, hp]
  · intro hW
    by_cases hp : f.pixels.isEmpty
    · simp [save_motion_image, hf, hp]
    · simp [save_motion_image, hf, hp, hW]

/-- C7 (amended): for every valid frame, `save_motion_image` attempts its
write at the path `<images_dir>/motion_<timestamp>.jpg` — the configured
output directory, a timestamp carrying the microsecond field, and the literal
`jpg` extension regardless of the configured image format — at the configured
quality, and on a successful write returns that path. -/
theorem save_written_path (R : MotionBox → PyFrame → PyFrame)
    (G A : PyFrame → PyFrame) (W : String → PyFrame → Nat → Bool)
    (cfg : Config) (t : Timestamp) (h : Heap) (fid : Nat) (f : PyFrame)
    (boxes : List MotionBox) (hf : h[fid]? = some f)
    (hne : f.pixels.isEmpty = false) :
    (save_motion_image R G A W cfg t h (some fid) boxes).2.2 =
        some (cfg.images_dir ++ "/" ++
          ("motion_" ++ strftime_motion t ++ ".jpg"),
          out_frame R G A h f boxes, cfg.image_quality) ∧
      (W (cfg.images_dir ++ "/" ++ ("motion_" ++ strftime_motion t ++ ".jpg"))
          (out_frame R G A h f boxes) cfg.image_quality = true →
        (save_motion_image R G A W cfg t h (some fid) boxes).2.1 =
          some (cfg.images_dir ++ "/" ++
            ("motion_" ++ strftime_motion t ++ ".jpg"))) := by
  refine ⟨?_, ?_⟩
  · simp only [save_motion_image, hf, hne, Bool.false_eq_true, if_false]
  · intro hw
    simp only [save_motion_image, hf, hne, Bool.false_eq_true, if_false, hw,
      if_true]

/-- C7 counterexample: with the configured image format set to `png` (a value
`Config._validate_paths` accepts), the path returned for a saved frame still
ends in the literal `.jpg`; the extension does not follow the configured
image format. -/
theorem save_ext_ignores_config_format :
    (save_motion_image (fun _ fr => fr) id id (fun _ _ _ => true) cfgPng
        ts2026 [framePx] (some 0) []).2.1 =
      some "images/motion_20260102_030405_000006.jpg" ∧
    cfgPng.image_format = "png" ∧
    (save_motion_image (fun _ fr => fr) id id (fun _ _ _ => true) cfgPng
        ts2026 [framePx] (some 0) []).2.1 ≠
      some ("images/motion_20260102_030405_000006." ++ cfgPng.image_format) := by
  refine ⟨by decide, rfl, by decide⟩

/-- Witness for C1 at the concrete three-entry episode: entryC is vetoed for
lacking a large box, and entryB (area 12000) is selected. -/
theorem best_frame_selection_witness :
    ∃ best pre post acts,
      (process_motion_sequence true (fun _ => some "img.jpg") true true 5
          procStateW).2 = Action.saveImage best :: acts ∧
        (∀ e, Action.saveImage e ∉ acts) ∧
        qualifyingEntries procStateW.motion_sequence = pre ++ best :: post ∧
        (∀ e ∈ pre, e.motion_area < best.motion_area) ∧
        (∀ e ∈ qualifyingEntries procStateW.motion_sequence,
          e.motion_area ≤ best.motion_area) :=
  (best_frame_selection true (fun _ => some "img.jpg") true true 5 procStateW
    (by decide)).2 entryA [entryB] (by decide)

/-- Witness for C2 at a buffering state fed an empty reading: the buffer
property is preserved and the episode is reset. -/
theorem episode_tracker_invariants_witness :
    (∀ e ∈ (runStep true 0 runStateW frameInputW).1.motion_sequence,
      e.motion_boxes ≠ []) ∧
      (runStep true 0 runStateW frameInputW).1.motion_sequence = [] ∧
      (runStep true 0 runStateW frameInputW).1.motion_active = false := by
  obtain ⟨h1, h2⟩ := episode_tracker_invariants true 0 runStateW frameInputW
  exact ⟨h1 (by decide), h2 rfl (by decide)
    (by norm_num [frameInputW, min_startup_delay]) rfl rfl⟩

/-- Witness for C3: a gated frame only increments the counter, and the first
post-gate frame only initializes the subtractor. -/
theorem warmup_gating_witness :
    runStep true 0 runStateGate frameInputW = (⟨4, false, false, 0, [], 0⟩, []) ∧
      runStep true 0 runStateFresh frameInputW =
        (⟨101, true, false, 0, [], 0⟩, []) :=
  ⟨(warmup_gating true 0 runStateGate frameInputW rfl).1 (Or.inl (by decide)),
    (warmup_gating true 0 runStateFresh frameInputW rfl).2 (by decide)
      (by norm_num [frameInputW, min_startup_delay]) rfl⟩

/-- Witness for C4: a dispatched alert on a concrete path with a failing
removal still yields exactly the send attempt followed by the delete
attempt. -/
theorem alert_deletes_after_send_witness :
    send_motion_alert true (some "img.jpg") true false =
      [Action.sendAttempt "img.jpg" true,
        Action.removeAttempt "img.jpg" false] :=
  (alert_deletes_after_send "img.jpg" (by decide) true false).1

/-- Witness for C10: with the email service disabled no worker action is
emitted at all. -/
theorem alert_noop_without_send_witness :
    send_motion_alert false (some "img.jpg") true true = [] :=
  (alert_noop_without_send false (some "img.jpg") true true (Or.inl rfl)).1

/-- Witness for C8: saving the concrete frame with an always-raising writer
leaves the source buffer intact and returns the failure value. -/
theorem save_no_source_mutation_witness :
    ((save_motion_image (fun _ fr => fr) id id (fun _ _ _ => false) cfgPng
        ts2026 [framePx] (some 0) []).1)[0]? = some framePx ∧
      (save_motion_image (fun _ fr => fr) id id (fun _ _ _ => false) cfgPng
        ts2026 [framePx] (some 0) []).2.1 = none := by
  obtain ⟨h1, -, -, h4⟩ := save_no_source_mutation (fun _ fr => fr) id id
    (fun _ _ _ => false) cfgPng ts2026 [framePx] 0 framePx [] rfl
  exact ⟨h1, h4 (fun _ _ _ => rfl)⟩

/-- Witness for C7 (amended) at the concrete frame and timestamp: the write
goes to the configured directory under the motion-timestamp name at the
configured quality, and the path is returned. -/
theorem save_written_path_witness :
    (save_motion_image (fun _ fr => fr) id id (fun _ _ _ => true) cfgPng
        ts2026 [framePx] (some 0) []).2.2 =
        some (cfgPng.images_dir ++ "/" ++
          ("motion_" ++ strftime_motion ts2026 ++ ".jpg"),
          out_frame (fun _ fr => fr) id id [framePx] framePx [],
          cfgPng.image_quality) ∧
      (save_motion_image (fun _ fr => fr) id id (fun _ _ _ => true) cfgPng
        ts2026 [framePx] (some 0) []).2.1 =
        some (cfgPng.images_dir ++ "/" ++
          ("motion_" ++ strftime_motion ts2026 ++ ".jpg")) := by
  obtain ⟨h1, h2⟩ := save_written_path (fun _ fr => fr) id id
    (fun _ _ _ => true) cfgPng ts2026 [framePx] 0 framePx [] rfl rfl
  exact ⟨h1, h2 rfl⟩

end MotionDetect
